import Mathlib

set_option maxHeartbeats 1000000

/-!
Verification of the long-term-memory system (`src/`): a shallow embedding of
its retention model, daily compression batch, retrieval ranking, and storage
serialization, with theorems settling the frozen claims.

Modelling conventions:
* Python dicts holding configuration are embedded as structures whose fields
  are `Option`-valued, so that `dict.get(key, default)` becomes `Option.getD`.
* Python floats are embedded as `ℚ`.  The external float operations that have
  no exact rational counterpart (`x ** y` for fractional `y` from the `math`
  layer, `numpy` square roots) are passed in as function parameters (`rpow`,
  `sqrtf`); theorems that need a property of them take it as a hypothesis.
* The SQLite store is embedded as a `List Memory`; SQL `UPDATE ... WHERE`
  sweeps become `List.map` with the row filter as the branch condition, and
  `DELETE` becomes `List.filter`.
* Exceptions from external analyzer/embedder calls are embedded as `Option`
  results (`none` = the call raised).
-/

/-- `config["retention"]` section (config_loader.py DEFAULT_CONFIG;
only the keys read by the embedded functions are carried). -/
structure RetentionConfig where
  max_decay_coefficient : Option ℚ

/-- `config["levels"]` section.  Note the source DEFAULT_CONFIG carries only
`level1_threshold` and `level2_threshold`; there is no `level3_threshold` key. -/
structure LevelsConfig where
  level1_threshold : Option ℚ
  level2_threshold : Option ℚ
  level3_threshold : Option ℚ

/-- `config["recall"]` section. -/
structure RecallConfig where
  decay_coefficient_boost : Option ℚ
  memory_days_reduction : Option ℚ

/-- `config["retrieval"]` section. -/
structure RetrievalConfig where
  top_k : Option Nat
  relevance_threshold : Option ℚ
  category_boost_beta : Option ℚ

/-- `config["archive"]` section. -/
structure ArchiveConfig where
  enable_archive_recall : Option Bool
  revival_decay_per_day : Option ℚ
  revival_min_margin : Option ℚ
  auto_delete_enabled : Option Bool
  delete_require_zero_recall : Option Bool
  delete_max_intensity : Option ℚ
  delete_condition_mode : Option String

/-- `config["relations"]` section. -/
structure RelationsConfig where
  max_relations_per_memory : Option Nat

/-- The configuration value: the sections read by the embedded functions. -/
structure Config where
  retention : RetentionConfig
  levels : LevelsConfig
  «recall» : RecallConfig
  retrieval : RetrievalConfig
  archive : ArchiveConfig
  relations : RelationsConfig

/-- `DEFAULT_CONFIG` from config_loader.py, restricted to the carried keys.
With no user configuration file, `load_config` returns exactly this value
(`DEFAULT_CONFIG.copy()`).  In particular `retrieval.top_k = 5`,
`retrieval.relevance_threshold = 5.0`, and there is no
`retrieval.category_boost_beta` key and no `levels.level3_threshold` key. -/
def DEFAULT_CONFIG : Config where
  retention := { max_decay_coefficient := some (999/1000) }
  levels := { level1_threshold := some 50, level2_threshold := some 20,
              level3_threshold := none }
  «recall» := { decay_coefficient_boost := some (1/50),
                memory_days_reduction := some (1/2) }
  retrieval := { top_k := some 5, relevance_threshold := some 5,
                 category_boost_beta := none }
  archive := { enable_archive_recall := some true,
               revival_decay_per_day := some (199/200),
               revival_min_margin := some 3,
               auto_delete_enabled := some false,
               delete_require_zero_recall := some true,
               delete_max_intensity := some 20,
               delete_condition_mode := some "AND" }
  relations := { max_relations_per_memory := some 10 }

/-- One row of the `memories` table (memory_store.py `_row_to_dict`).
`embedding` components are rationals (see the float convention above);
timestamps are carried as their ISO-8601 strings. -/
structure Memory where
  id : String
  memory_days : ℚ
  recalled_since_last_batch : Bool
  recall_count : Nat
  emotional_intensity : ℚ
  decay_coefficient : ℚ
  current_level : Nat
  trigger : String
  content : String
  embedding : Option (List ℚ)
  relations : List String
  retention_score : Option ℚ
  archived_at : Option String
  «protected» : Bool
  revival_requested : Bool
  revival_requested_at : Option String
  deriving DecidableEq

/-! ## retention.py -/

/-- `calculate_retention_score` (retention.py:12-30):
`emotional_intensity * decay_coefficient ** memory_days`.  The float power
with a fractional exponent is the abstracted `rpow` parameter. -/
def calculate_retention_score (rpow : ℚ → ℚ → ℚ)
    (emotional_intensity decay_coefficient memory_days : ℚ) : ℚ :=
  emotional_intensity * rpow decay_coefficient memory_days

/-- `determine_level` (retention.py:33-59).  Reads `level1_threshold`
(default 50) and `level2_threshold` (default 20) and returns 1, 2 or 4:
the source has no level-3 branch. -/
def determine_level (config : Config) (retention_score : ℚ) : Nat :=
  let level1_threshold := config.levels.level1_threshold.getD 50
  let level2_threshold := config.levels.level2_threshold.getD 20
  if retention_score ≥ level1_threshold then 1
  else if retention_score ≥ level2_threshold then 2
  else 4

/-- `update_retention_score` (retention.py:95-109). -/
def update_retention_score (rpow : ℚ → ℚ → ℚ) (memory : Memory) : ℚ :=
  calculate_retention_score rpow memory.emotional_intensity
    memory.decay_coefficient memory.memory_days

/-- `should_compress` (retention.py:112-142): recompute the level from the
cached score (recomputing the score itself when the column is NULL); protected
memories are never compressed; compress iff the level strictly rises. -/
def should_compress (rpow : ℚ → ℚ → ℚ) (config : Config) (memory : Memory) :
    Bool × Nat :=
  let current_level := memory.current_level
  let retention_score :=
    match memory.retention_score with
    | none => update_retention_score rpow memory
    | some s => s
  let new_level := determine_level config retention_score
  if memory.«protected» then (false, current_level)
  else if new_level > current_level then (true, new_level)
  else (false, current_level)

/-! ## recall.py -/

/-- `process_recalled_memory` (recall.py:14-60) with the returned updates dict
already applied to the row (`store.update_memory` writes exactly these four
fields): halve `memory_days`, raise `decay_coefficient` by the boost capped at
`max_decay_coefficient`, bump `recall_count`, clear the recall flag. -/
def process_recalled_memory (config : Config) (memory : Memory) : Memory :=
  let memory_days_reduction := config.«recall».memory_days_reduction.getD (1/2)
  let decay_boost := config.«recall».decay_coefficient_boost.getD (1/50)
  let max_decay := config.retention.max_decay_coefficient.getD (999/1000)
  { memory with
    memory_days := memory.memory_days * memory_days_reduction
    decay_coefficient := min (memory.decay_coefficient + decay_boost) max_decay
    recall_count := memory.recall_count + 1
    recalled_since_last_batch := false }

/-- `process_all_recalled_memories` (recall.py:63-97): the SQL selection
`WHERE recalled_since_last_batch = 1 AND archived_at IS NULL` applied row by
row; all other rows are untouched. -/
def process_all_recalled_memories (config : Config) (store : List Memory) :
    List Memory :=
  store.map fun m =>
    if m.recalled_since_last_batch = true ∧ m.archived_at = none then
      process_recalled_memory config m
    else m

/-! ## Claim theorems (first group) -/

/-- Claim C1: the claim states that with default thresholds `determine_level`
maps a score in `[5, 20)` to level 3.  The source returns 4 there: at the
failing input `retention_score = 10` (inside the claimed level-3 band) the
function returns 4, contradicting the repository's own test suite
(test_retention.py `test_level3` expects `determine_level(10) == 3` and
`test_level3_threshold` expects `determine_level(5) == 3`). -/
theorem determine_level_no_level3 :
    (5 : ℚ) ≤ 10 ∧ (10 : ℚ) < 20 ∧
      determine_level DEFAULT_CONFIG 10 = 4 ∧
      determine_level DEFAULT_CONFIG 10 ≠ 3 ∧
      determine_level DEFAULT_CONFIG 5 = 4 := by
  refine ⟨by norm_num, by norm_num, ?_, ?_, ?_⟩ <;>
    norm_num [determine_level, DEFAULT_CONFIG]

/-! ## Retrieval configuration lookups (memory_retrieval.py:276-278, 165) -/

/-- `retrieval_config.get("top_k", 10)` as read in `search_memories`
(memory_retrieval.py:277). -/
def retrieval_top_k (config : Config) : Nat :=
  config.retrieval.top_k.getD 10

/-- `retrieval_config.get("relevance_threshold", 0.5)` as read in
`search_memories` (memory_retrieval.py:278). -/
def retrieval_relevance_threshold (config : Config) : ℚ :=
  config.retrieval.relevance_threshold.getD (1/2)

/-- `retrieval_config.get("category_boost_beta", 2.0)` as read in
`calculate_relevance` (memory_retrieval.py:165). -/
def retrieval_category_boost_beta (config : Config) : ℚ :=
  config.retrieval.category_boost_beta.getD 2

/-- Claim C3 counterexample: with no user configuration file (so the
configuration is exactly `DEFAULT_CONFIG`), retrieval runs with
`top_k = 5`, not 10, and `relevance_threshold = 5.0`, not 0.5 — the
DEFAULT_CONFIG values shadow the call-site fallbacks. -/
theorem retrieval_defaults_counterexample :
    retrieval_top_k DEFAULT_CONFIG ≠ 10 ∧
      retrieval_relevance_threshold DEFAULT_CONFIG ≠ 1/2 := by
  constructor <;>
    norm_num [retrieval_top_k, retrieval_relevance_threshold, DEFAULT_CONFIG]

/-- Claim C3 (amended): when no user configuration file exists, retrieval runs
with `top_k = 5` and `relevance_threshold = 5.0` (the `DEFAULT_CONFIG` values,
which shadow the call-site fallbacks of 10 and 0.5), while
`category_boost_beta = 2.0` (the key is absent from `DEFAULT_CONFIG`, so the
call-site fallback applies). -/
theorem retrieval_defaults :
    retrieval_top_k DEFAULT_CONFIG = 5 ∧
      retrieval_relevance_threshold DEFAULT_CONFIG = 5 ∧
      retrieval_category_boost_beta DEFAULT_CONFIG = 2 := by
  refine ⟨rfl, ?_, ?_⟩ <;>
    norm_num [retrieval_relevance_threshold, retrieval_category_boost_beta,
      DEFAULT_CONFIG]

/-! ## compression.py -/

/-- The updates dict accumulated inside `compress_memory`
(compression.py:105-161).  A `none` field is absent from the dict, so
`store.update_memory` leaves the corresponding column unchanged. -/
structure CompressUpdates where
  current_level : Nat
  trigger : Option String := none
  content : Option String := none
  archived_at : Option String := none
  embedding : Option (List ℚ) := none
  deriving DecidableEq

/-- compression.py:130-134, the `current_level == 1 and new_level >= 2` block:
summarize via `compress_to_level2` (parameter `f2`; `none` = the call
raised, leaving the updates dict as it was before the block). -/
def compressStage2 (f2 : String → String → Option (String × String))
    (m : Memory) (new_level : Nat) (u : CompressUpdates) :
    Option CompressUpdates :=
  if m.current_level = 1 ∧ 2 ≤ new_level then
    match f2 m.trigger m.content with
    | none => none
    | some (t, c) => some { u with trigger := some t, content := some c }
  else some u

/-- compression.py:136-143, the `current_level <= 2 and new_level >= 3` block:
keyword-form via `compress_to_level3` (parameter `f3`), reading its input from
the updates accumulated so far (`updates.get("trigger", trigger)`). -/
def compressStage3 (f3 : String → String → Option (String × String))
    (m : Memory) (new_level : Nat) (u : CompressUpdates) :
    Option CompressUpdates :=
  if m.current_level ≤ 2 ∧ 3 ≤ new_level then
    match f3 (u.trigger.getD m.trigger) (u.content.getD m.content) with
    | none => none
    | some (t, c) => some { u with trigger := some t, content := some c }
  else some u

/-- compression.py:145-147: on a transition to level 4 record `archived_at`
(the `now` timestamp); this block cannot raise. -/
def compressStage4 (now : String) (new_level : Nat) (u : CompressUpdates) :
    CompressUpdates :=
  if new_level = 4 then { u with archived_at := some now } else u

/-- compression.py:149-154: regenerate the embedding from the final texts
(parameter `embf`; `none` = the call raised). -/
def compressEmbed (embf : String → Option (List ℚ)) (m : Memory)
    (u : CompressUpdates) : Option CompressUpdates :=
  match embf ((u.trigger.getD m.trigger) ++ " " ++ (u.content.getD m.content)) with
  | none => none
  | some e => some { u with embedding := some e }

/-- `compress_memory` (compression.py:105-161): the try/except around the four
stages.  An exception in any stage is caught and the updates accumulated
BEFORE that stage are persisted unchanged (`except Exception: pass` followed by
`store.update_memory`); the dict always starts as
`{"current_level": new_level}`. -/
def compress_memory (f2 f3 : String → String → Option (String × String))
    (embf : String → Option (List ℚ)) (now : String)
    (m : Memory) (new_level : Nat) : CompressUpdates :=
  match compressStage2 f2 m new_level { current_level := new_level } with
  | none => { current_level := new_level }
  | some u1 =>
    match compressStage3 f3 m new_level u1 with
    | none => u1
    | some u2 =>
      match compressEmbed embf m (compressStage4 now new_level u2) with
      | none => compressStage4 now new_level u2
      | some u4 => u4

/-- `store.update_memory(memory["id"], updates)` for a `CompressUpdates` dict:
columns whose key is absent (`none`) keep their old value. -/
def apply_updates (m : Memory) (u : CompressUpdates) : Memory :=
  { m with
    current_level := u.current_level
    trigger := u.trigger.getD m.trigger
    content := u.content.getD m.content
    archived_at := match u.archived_at with
      | some a => some a
      | none => m.archived_at
    embedding := match u.embedding with
      | some e => some e
      | none => m.embedding }

/-- `process_compression` (compression.py:164-198): sweep the active memories,
compressing those selected by `should_compress`; archived rows and unselected
rows are untouched. -/
def process_compression (rpow : ℚ → ℚ → ℚ)
    (f2 f3 : String → String → Option (String × String))
    (embf : String → Option (List ℚ)) (now : String)
    (config : Config) (store : List Memory) : List Memory :=
  store.map fun m =>
    if m.archived_at = none then
      match should_compress rpow config m with
      | (true, new_level) => apply_updates m (compress_memory f2 f3 embf now m new_level)
      | (false, _) => m
    else m

/-- `increment_memory_days` (compression.py:54-76): SQL update
`SET memory_days = memory_days + 1.0
 WHERE recalled_since_last_batch = 0 AND archived_at IS NULL`. -/
def increment_memory_days (store : List Memory) : List Memory :=
  store.map fun m =>
    if m.recalled_since_last_batch = false ∧ m.archived_at = none then
      { m with memory_days := m.memory_days + 1 }
    else m

/-- `update_retention_scores` (compression.py:79-102): recompute
`retention_score` for every active memory. -/
def update_retention_scores (rpow : ℚ → ℚ → ℚ) (store : List Memory) :
    List Memory :=
  store.map fun m =>
    if m.archived_at = none then
      { m with retention_score := some (update_retention_score rpow m) }
    else m

/-- `process_revival` (compression.py:201-263) applied to one selected row
(`revival_requested = 1 AND archived_at IS NOT NULL`).  `days_in_archive`,
computed in the source as `(now - fromisoformat(archived_at)).days` with 0 on
a parse failure, is abstracted as the function parameter `daysFn` applied to
the stored timestamp. -/
def revive_memory (daysFn : String → Nat) (config : Config) (m : Memory) :
    Memory :=
  let revival_decay := config.archive.revival_decay_per_day.getD (199/200)
  let revival_margin := config.archive.revival_min_margin.getD 3
  let level3_threshold := config.levels.level3_threshold.getD 5
  let days_in_archive := match m.archived_at with
    | some a => daysFn a
    | none => 0
  let new_score := m.emotional_intensity * revival_decay ^ days_in_archive
  let min_score := level3_threshold + revival_margin
  { m with
    archived_at := none
    current_level := 3
    retention_score := some (max new_score min_score)
    revival_requested := false
    revival_requested_at := none }

/-- `process_revival` (compression.py:201-263): the selection
`WHERE revival_requested = 1 AND archived_at IS NOT NULL` applied row by row. -/
def process_revival (daysFn : String → Nat) (config : Config)
    (store : List Memory) : List Memory :=
  store.map fun m =>
    if m.revival_requested = true ∧ m.archived_at ≠ none then
      revive_memory daysFn config m
    else m

/-- The per-row delete condition of `process_auto_delete`
(compression.py:296-326): protected rows are skipped, the `conditions` list is
built (archived-before-cutoff, optionally zero recalls, low intensity) and
combined with `all` for mode `"AND"` and `any` otherwise.  The cutoff ISO
string (`now - retention_days`) is the parameter `cutoff`; ISO timestamps
compare as strings, as in the source. -/
def auto_delete_matches (config : Config) (cutoff : String) (m : Memory) :
    Bool :=
  if m.«protected» then false
  else
    match m.archived_at with
    | none => false
    | some a =>
      let require_zero_recall := config.archive.delete_require_zero_recall.getD true
      let max_intensity := config.archive.delete_max_intensity.getD 20
      let condition_mode := config.archive.delete_condition_mode.getD "AND"
      let conditions : List Bool :=
        [decide (a < cutoff)] ++
          (if require_zero_recall then [decide (m.recall_count = 0)] else []) ++
          [decide (m.emotional_intensity ≤ max_intensity)]
      if condition_mode = "AND" then conditions.all id else conditions.any id

/-- `process_auto_delete` (compression.py:266-328): a no-op unless
`archive.auto_delete_enabled` (default false); otherwise delete the archived
rows matched by `auto_delete_matches`. -/
def process_auto_delete (config : Config) (cutoff : String)
    (store : List Memory) : List Memory :=
  if config.archive.auto_delete_enabled.getD false = false then store
  else store.filter fun m => ¬ auto_delete_matches config cutoff m

/-! ## relations.py -/

/-- `add_relation` (relations.py:86-111): append unless already present or at
the cap. -/
def add_relation (relations : List String) (target_id : String)
    (max_relations : Nat) : List String :=
  if target_id ∈ relations then relations
  else if max_relations ≤ relations.length then relations
  else relations ++ [target_id]

/-- `remove_relation` (relations.py:114-128): drop the first occurrence. -/
def remove_relation (relations : List String) (target_id : String) :
    List String :=
  relations.erase target_id

/-- `store.update_memory(mid, relations=rs)`: rewrite only the `relations`
column of the row(s) with the given id. -/
def update_relations_column (mid : String) (rs : List String)
    (store : List Memory) : List Memory :=
  store.map fun m => if m.id = mid then { m with relations := rs } else m

/-- `check_integrity` (relations.py:131-158): drop relation ids that no longer
exist; rows whose list is already clean are not rewritten (the written value is
the same either way). -/
def check_integrity (store : List Memory) : List Memory :=
  let all_ids := store.map (·.id)
  store.map fun m =>
    let valid_relations := m.relations.filter (fun r => decide (r ∈ all_ids))
    if valid_relations.length ≠ m.relations.length then
      { m with relations := valid_relations }
    else m

/-- The inner loop body of `reevaluate_directions` (relations.py:184-204) for
one edge `m → target_id`: when the target's (snapshot) score strictly exceeds
the owner's, remove the edge from the owner's snapshot list and add the reverse
edge onto the target's snapshot list, writing both rows. -/
def reevaluate_edge (config : Config) (snapshot : List Memory) (m : Memory)
    (store : List Memory) (target_id : String) : List Memory :=
  match snapshot.find? (fun t => t.id = target_id) with
  | none => store
  | some target =>
    let my_score := (m.retention_score).getD 0
    let target_score := (target.retention_score).getD 0
    if target_score > my_score then
      let max_relations := config.relations.max_relations_per_memory.getD 10
      let store := update_relations_column m.id
        (remove_relation m.relations target_id) store
      update_relations_column target_id
        (add_relation target.relations m.id max_relations) store
    else store

/-- `reevaluate_directions` (relations.py:161-206): iterate over a snapshot of
the whole store (`get_all_memories` fetched once, so the loop reads stale rows
while the writes accumulate in the store, exactly as in the source). -/
def reevaluate_directions (config : Config) (store : List Memory) :
    List Memory :=
  let snapshot := store
  snapshot.foldl
    (fun st m => m.relations.foldl (reevaluate_edge config snapshot m) st)
    store

/-- `process_relations` (relations.py:265-297) as invoked by the batch
(`new_memory_ids = None`, so auto-linking is skipped): integrity sweep then
direction reevaluation. -/
def process_relations (config : Config) (store : List Memory) : List Memory :=
  reevaluate_directions config (check_integrity store)

/-- `run_compression_batch` (compression.py:331-397) for an executed run (the
date gate passed or `force` was set): steps 1-7 in source order.  Step 8 only
writes the `last_compression_run` state slot, which is not part of the record
list.  External inputs are the parameters: `rpow` (float power), `f2`/`f3`
(analyzer), `embf` (embedder), `daysFn` (archive-age in days), `now` (the
timestamp written into `archived_at`), `cutoff` (the auto-delete cutoff ISO
string). -/
def run_compression_batch (rpow : ℚ → ℚ → ℚ)
    (f2 f3 : String → String → Option (String × String))
    (embf : String → Option (List ℚ)) (daysFn : String → Nat)
    (now cutoff : String) (config : Config) (store : List Memory) :
    List Memory :=
  process_auto_delete config cutoff
    (process_relations config
      (process_revival daysFn config
        (process_compression rpow f2 f3 embf now config
          (update_retention_scores rpow
            (increment_memory_days
              (process_all_recalled_memories config store))))))

/-! ## memory_retrieval.py -/

/-- Python `str.strip()` on the character sequence of the prompt: drop
whitespace from both ends. -/
def pyStrip (s : List Char) : List Char :=
  ((s.dropWhile Char.isWhitespace).reverse.dropWhile Char.isWhitespace).reverse

/-- `should_skip` (memory_retrieval.py:63-82): skip the empty prompt and
prompts whose stripped form starts with a slash.  There is no other branch:
in particular no check for the `<command-name>/` marker that the ingestion
module filters on. -/
def should_skip (query : List Char) : Bool :=
  if query = [] then true
  else
    let stripped := pyStrip query
    if stripped.head? = some '/' then true
    else false

/-- The guard of `main` (memory_retrieval.py:445):
`if not query.strip() or should_skip(query): return` — the retrieval entry
point returns with no side effects exactly when this is true. -/
def main_skips (query : List Char) : Bool :=
  pyStrip query = [] || should_skip query

/-- Python's substring test `pat in s` on character sequences. -/
def containsSeq (pat : List Char) : List Char → Bool
  | [] => decide (pat = [])
  | c :: rest => pat.isPrefixOf (c :: rest) || containsSeq pat rest

/-- The Claude-Code command marker filtered by the ingestion module
(memory_generation.py:182-183: `"<command-name>/" in stripped`), tested here
against the retrieval prompt. -/
def has_command_marker (query : List Char) : Bool :=
  containsSeq ("<command-name>/".data) (pyStrip query)

/-- Sum of squares: the square of `np.linalg.norm(v)`. -/
def sumSq (v : List ℚ) : ℚ :=
  (v.map fun x => x * x).sum

/-- `np.dot` on equal-length vectors. -/
def dotList (a b : List ℚ) : ℚ :=
  (List.zipWith (fun x y => x * y) a b).sum

/-- `cosine_similarity` (memory_retrieval.py:85-104): with
`norm_a = sqrtf (sumSq a)` (the numpy square root is the abstracted `sqrtf`
parameter), return 0.0 when either norm is zero, else the normalized dot
product. -/
def cosine_similarity (sqrtf : ℚ → ℚ) (vec_a vec_b : List ℚ) : ℚ :=
  let norm_a := sqrtf (sumSq vec_a)
  let norm_b := sqrtf (sumSq vec_b)
  if norm_a = 0 ∨ norm_b = 0 then 0
  else dotList vec_a vec_b / (norm_a * norm_b)

/-- The vectorized similarity of `find_similar_memories`
(relations.py:43-52): per row, the divisor `‖e_i‖·‖new‖` is replaced by 1 when
it is zero (`np.where(norms == 0, 1, norms)`) before dividing the dot
products. -/
def vectorized_similarities (sqrtf : ℚ → ℚ) (new_emb : List ℚ)
    (embeddings : List (List ℚ)) : List ℚ :=
  embeddings.map fun e =>
    let norms := sqrtf (sumSq e) * sqrtf (sumSq new_emb)
    let norms := if norms = 0 then 1 else norms
    dotList e new_emb / norms

/-- One scored candidate of `search_memories`: the tuple
`(relevance, mem, is_archived)` with the record abbreviated to its id. -/
structure Scored where
  relevance : ℚ
  id : String
  archived : Bool
  deriving DecidableEq

/-- The descending comparison `search_memories` sorts by
(`key=lambda x: x[0], reverse=True`): `a` may come before `b` iff
`b.relevance ≤ a.relevance`. -/
def rankGE (a b : Scored) : Prop :=
  b.relevance ≤ a.relevance

instance : DecidableRel rankGE := fun a b =>
  inferInstanceAs (Decidable (b.relevance ≤ a.relevance))

instance : IsTotal Scored rankGE :=
  ⟨fun a b => le_total b.relevance a.relevance⟩

instance : IsTrans Scored rankGE :=
  ⟨fun _ _ _ h1 h2 => le_trans h2 h1⟩

/-- memory_retrieval.py:315: keep only candidates with positive relevance. -/
def positiveScored (scored : List Scored) : List Scored :=
  scored.filter fun s => decide (0 < s.relevance)

/-- memory_retrieval.py:318: of those, the candidates at or above the
relevance threshold. -/
def highRelevance (relevance_threshold : ℚ) (scored : List Scored) :
    List Scored :=
  (positiveScored scored).filter fun s =>
    decide (relevance_threshold ≤ s.relevance)

/-- The filter-and-rank tail of `search_memories`
(memory_retrieval.py:314-326): drop non-positive relevance; if at least
`top_k` candidates reach the threshold, stably sort those by descending
relevance and take `top_k`; otherwise stably sort all remaining candidates and
take `top_k`.  Python's `list.sort` is stable, which `insertionSort` by
`rankGE` reproduces exactly. -/
def search_memories_rank (top_k : Nat) (relevance_threshold : ℚ)
    (scored : List Scored) : List Scored :=
  let high := highRelevance relevance_threshold scored
  if top_k ≤ high.length then (high.insertionSort rankGE).take top_k
  else ((positiveScored scored).insertionSort rankGE).take top_k

/-! ## memory_store.py embedding codec -/

/-- The four little-endian bytes of one 32-bit word: the layout
`np.array(..., dtype=np.float32).tobytes()` writes for one component, with the
component abstracted to its IEEE-754 bit pattern (a `Nat` below `2^32`). -/
def encodeWord32LE (w : Nat) : List Nat :=
  [w % 256, w / 256 % 256, w / 65536 % 256, w / 16777216 % 256]

/-- `MemoryStore._encode_embedding` (memory_store.py:337-341): `None` stays
`None`; otherwise the concatenated little-endian 4-byte encodings. -/
def _encode_embedding : Option (List Nat) → Option (List Nat)
  | none => none
  | some ws => some (ws.map encodeWord32LE).flatten

/-- Reassemble 32-bit words from consecutive little-endian 4-byte groups
(`np.frombuffer(blob, dtype=np.float32)`). -/
def decodeWords : List Nat → List Nat
  | b0 :: b1 :: b2 :: b3 :: rest =>
    (b0 + 256 * b1 + 65536 * b2 + 16777216 * b3) :: decodeWords rest
  | _ => []

/-- `MemoryStore._decode_embedding` (memory_store.py:343-347). -/
def _decode_embedding : Option (List Nat) → Option (List Nat)
  | none => none
  | some bs => some (decodeWords bs)

/-! ## Supporting lemmas -/

theorem decodeWords_encode_cons (w : Nat) (rest : List Nat) (hw : w < 2 ^ 32) :
    decodeWords (encodeWord32LE w ++ rest) = w :: decodeWords rest := by
  have : w % 256 + 256 * (w / 256 % 256) + 65536 * (w / 65536 % 256) +
      16777216 * (w / 16777216 % 256) = w := by omega
  simp [encodeWord32LE, decodeWords, this]

theorem sumSq_nil : sumSq [] = 0 := rfl

theorem sumSq_cons (x : ℚ) (xs : List ℚ) :
    sumSq (x :: xs) = x * x + sumSq xs := by
  simp [sumSq]

theorem sumSq_nonneg (v : List ℚ) : 0 ≤ sumSq v := by
  induction v with
  | nil => simp [sumSq_nil]
  | cons x xs ih =>
    rw [sumSq_cons]
    exact add_nonneg (mul_self_nonneg x) ih

theorem all_zero_of_sumSq_eq_zero {v : List ℚ} (h : sumSq v = 0) :
    ∀ x ∈ v, x = 0 := by
  induction v with
  | nil => simp
  | cons y ys ih =>
    rw [sumSq_cons] at h
    have hy2 : 0 ≤ y * y := mul_self_nonneg y
    have hys : 0 ≤ sumSq ys := sumSq_nonneg ys
    have hy : y * y = 0 := by linarith
    have hys0 : sumSq ys = 0 := by linarith
    intro x hx
    rcases List.mem_cons.mp hx with hx | hx
    · subst hx; exact mul_self_eq_zero.mp hy
    · exact ih hys0 x hx

theorem dotList_eq_zero_left {a : List ℚ} (b : List ℚ)
    (h : ∀ x ∈ a, x = 0) : dotList a b = 0 := by
  induction a generalizing b with
  | nil => simp [dotList]
  | cons x xs ih =>
    cases b with
    | nil => simp [dotList]
    | cons y ys =>
      have hx : x = 0 := h x (List.mem_cons_self x xs)
      have hrest := ih (b := ys) fun z hz => h z (List.mem_cons_of_mem x hz)
      simp [dotList] at hrest ⊢
      simp [hx, hrest]

theorem dotList_eq_zero_right (a : List ℚ) {b : List ℚ}
    (h : ∀ x ∈ b, x = 0) : dotList a b = 0 := by
  induction a generalizing b with
  | nil => simp [dotList]
  | cons x xs ih =>
    cases b with
    | nil => simp [dotList]
    | cons y ys =>
      have hy : y = 0 := h y (List.mem_cons_self y ys)
      have hrest := ih (b := ys) fun z hz => h z (List.mem_cons_of_mem y hz)
      simp [dotList] at hrest ⊢
      simp [hy, hrest]

/-! ## Claim theorems (second group) -/

/-- Claim C9: serializing an embedding to the packed little-endian 32-bit
blob and deserializing it restores the vector exactly (components are carried
as their 32-bit IEEE-754 bit patterns: on those the byte round trip is exact,
which is what single-precision tolerance means once the input is already a
single-precision vector); an absent embedding encodes to and decodes from
absent. -/
theorem embedding_roundtrip :
    (∀ ws : List Nat, (∀ w ∈ ws, w < 2 ^ 32) →
      _decode_embedding (_encode_embedding (some ws)) = some ws) ∧
    _encode_embedding none = none ∧ _decode_embedding none = none := by
  refine ⟨fun ws hws => ?_, rfl, rfl⟩
  simp only [_encode_embedding, _decode_embedding, Option.some.injEq]
  induction ws with
  | nil => simp [decodeWords]
  | cons w rest ih =>
    have hw : w < 2 ^ 32 := hws w (List.mem_cons_self w rest)
    have hrest : ∀ x ∈ rest, x < 2 ^ 32 := fun x hx =>
      hws x (List.mem_cons_of_mem w hx)
    simp only [List.map_cons, List.flatten_cons]
    rw [decodeWords_encode_cons w _ hw, ih hrest]

theorem embedding_roundtrip_witness :
    (∀ w ∈ [0, 1, 4294967295], w < 2 ^ 32) ∧
      _decode_embedding (_encode_embedding (some [0, 1, 4294967295])) =
        some [0, 1, 4294967295] :=
  ⟨by decide, embedding_roundtrip.1 [0, 1, 4294967295] (by decide)⟩

/-- Claim C10: cosine similarity never divides by zero.  In the retrieval
module, a zero-norm input vector short-circuits `cosine_similarity` to 0.0
(given that the square root vanishes exactly on 0, the property of the
abstracted numpy square root); in the auto-linker's vectorized computation the
zero product of norms is replaced by the divisor 1, so a zero-norm row or a
zero-norm query still yields similarity 0. -/
theorem cosine_similarity_zero_norm_total :
    ∀ sqrtf : ℚ → ℚ, (∀ x : ℚ, 0 ≤ x → (sqrtf x = 0 ↔ x = 0)) →
      (∀ a b : List ℚ, sumSq a = 0 ∨ sumSq b = 0 →
        cosine_similarity sqrtf a b = 0) ∧
      (∀ (q : List ℚ) (embs : List (List ℚ)) (i : ℕ)
        (h1 : i < embs.length)
        (h2 : i < (vectorized_similarities sqrtf q embs).length),
        sumSq embs[i] = 0 ∨ sumSq q = 0 →
        (vectorized_similarities sqrtf q embs)[i] = 0) := by
  intro sqrtf hsqrt
  constructor
  · intro a b hab
    have hz : sqrtf (sumSq a) = 0 ∨ sqrtf (sumSq b) = 0 := by
      rcases hab with h | h
      · exact Or.inl ((hsqrt _ (sumSq_nonneg a)).mpr h)
      · exact Or.inr ((hsqrt _ (sumSq_nonneg b)).mpr h)
    simp [cosine_similarity, hz]
  · intro q embs i h1 h2 hz
    have hdot : dotList embs[i] q = 0 := by
      rcases hz with h | h
      · exact dotList_eq_zero_left q (all_zero_of_sumSq_eq_zero h)
      · exact dotList_eq_zero_right _ (all_zero_of_sumSq_eq_zero h)
    simp [vectorized_similarities, hdot]

theorem cosine_similarity_zero_norm_witness :
    cosine_similarity (fun x => x) [0, 0] [1, 2] = 0 ∧
      (vectorized_similarities (fun x => x) [0] [[5]]).head? = some 0 := by
  have h := cosine_similarity_zero_norm_total (fun x => x)
    (fun x _ => Iff.rfl)
  constructor
  · exact h.1 [0, 0] [1, 2] (Or.inl (by norm_num [sumSq]))
  · have h2 := h.2 [0] [[5]] 0 (by simp)
      (by simp [vectorized_similarities]) (Or.inr (by norm_num [sumSq]))
    rw [List.head?_eq_getElem?]
    simp only [List.getElem?_eq_getElem (by simp [vectorized_similarities] :
      0 < (vectorized_similarities (fun x => x) [0] [[5]]).length)]
    rw [h2]

/-- A prompt from the repository's own test suite
(test_batch_processing.py:92): it carries the Claude-Code command marker but
does not start with a slash. -/
def marker_prompt : List Char := "<command-name>/commit</command-name>".data

/-- Claim C5 counterexample: a prompt containing the command marker tag is NOT
skipped by the retrieval entry point — `main`'s guard is false on it, so
retrieval proceeds (and can raise recall flags, write revival requests and
print a memory block).  Only the ingestion module checks for the marker. -/
theorem retrieval_skip_counterexample :
    has_command_marker marker_prompt = true ∧
      main_skips marker_prompt = false := by
  constructor <;> rfl

/-- Claim C5 (amended): the retrieval entry point returns without side effects
exactly when the prompt is empty or whitespace-only after trimming, or its
trimmed form begins with a slash.  A prompt that merely contains a command
marker tag is not skipped (marker filtering happens only at ingestion). -/
theorem retrieval_skip_rule (q : List Char) :
    main_skips q = true ↔
      (pyStrip q = [] ∨ (pyStrip q).head? = some '/') := by
  by_cases hq : q = []
  · subst hq
    simp [main_skips, pyStrip, should_skip]
  · by_cases hh : (pyStrip q).head? = some '/' <;>
      simp [main_skips, should_skip, hq, hh, Bool.or_eq_true,
        decide_eq_true_eq]

theorem retrieval_skip_rule_witness :
    main_skips "  /clear".data = true ∧ main_skips "hello".data = false := by
  constructor
  · exact (retrieval_skip_rule "  /clear".data).mpr (Or.inr (by rfl))
  · have h := retrieval_skip_rule "hello".data
    by_contra hc
    simp only [Bool.not_eq_false] at hc
    rcases h.mp hc with h1 | h1 <;> revert h1 <;> decide

/-- Claim C6: under the default configuration, the batch recall-reinforcement
step halves `memory_days`, raises `decay_coefficient` by 0.02 capped at 0.999,
increments `recall_count`, and clears the recall flag — exactly on the active
rows whose flag is raised; every other row is untouched. -/
theorem recall_reinforcement (store : List Memory) (i : ℕ)
    (h1 : i < store.length)
    (h2 : i < (process_all_recalled_memories DEFAULT_CONFIG store).length) :
    (store[i].recalled_since_last_batch = true ∧ store[i].archived_at = none →
      (process_all_recalled_memories DEFAULT_CONFIG store)[i] =
        { store[i] with
          memory_days := store[i].memory_days * (1/2)
          decay_coefficient :=
            min (store[i].decay_coefficient + 1/50) (999/1000)
          recall_count := store[i].recall_count + 1
          recalled_since_last_batch := false }) ∧
    (store[i].recalled_since_last_batch = false ∨ store[i].archived_at ≠ none →
      (process_all_recalled_memories DEFAULT_CONFIG store)[i] = store[i]) := by
  constructor
  · intro hsel
    simp only [process_all_recalled_memories, List.getElem_map]
    rw [if_pos hsel]
    simp [process_recalled_memory, DEFAULT_CONFIG]
  · intro hskip
    have hcond : ¬(store[i].recalled_since_last_batch = true ∧
        store[i].archived_at = none) := by
      intro hc
      rcases hskip with h | h <;> simp_all
    simp only [process_all_recalled_memories, List.getElem_map, if_neg hcond]

/-- A concrete recalled active row used to witness the reinforcement step. -/
def sampleRecalled : Memory where
  id := "mem_20260101_aaaaaaaa"
  memory_days := 10
  recalled_since_last_batch := true
  recall_count := 2
  emotional_intensity := 50
  decay_coefficient := 9/10
  current_level := 1
  trigger := "t"
  content := "c"
  embedding := none
  relations := []
  retention_score := some 30
  archived_at := none
  «protected» := false
  revival_requested := false
  revival_requested_at := none

theorem recall_reinforcement_witness :
    (process_all_recalled_memories DEFAULT_CONFIG [sampleRecalled]).head? =
      some { sampleRecalled with
        memory_days := 5
        decay_coefficient := 23/25
        recall_count := 3
        recalled_since_last_batch := false } := by
  have h := (recall_reinforcement [sampleRecalled] 0 (by simp)
    (by simp [process_all_recalled_memories])).1 (by constructor <;> rfl)
  simp only [List.getElem_cons_zero] at h
  rw [List.head?_eq_getElem?,
    List.getElem?_eq_getElem (by simp [process_all_recalled_memories] :
      0 < (process_all_recalled_memories DEFAULT_CONFIG
        [sampleRecalled]).length)]
  simp only [List.getElem_cons_zero] at h ⊢
  rw [h]
  simp only [Option.some.injEq]
  have h5 : sampleRecalled.memory_days * (1/2) = 5 := by
    norm_num [sampleRecalled]
  have hd : min (sampleRecalled.decay_coefficient + 1/50) (999/1000) =
      23/25 := by
    norm_num [sampleRecalled]
  rw [h5, hd]
  simp [sampleRecalled]

/-- Claim C7: under the default configuration, the batch revival step, on
every archived row with `revival_requested`, sets `retention_score` to
`max (emotional_intensity * 0.995 ^ days_in_archive) (level3_threshold + 3)`
(the threshold falling back to 5), clears `archived_at`, sets
`current_level = 3` and clears both revival flags; rows without the request or
not archived are untouched.  `days_in_archive` is the abstracted whole-day age
`daysFn` of the stored timestamp. -/
theorem revival_step (daysFn : String → Nat) (store : List Memory) (i : ℕ)
    (h1 : i < store.length)
    (h2 : i < (process_revival daysFn DEFAULT_CONFIG store).length) :
    (∀ a, store[i].archived_at = some a → store[i].revival_requested = true →
      (process_revival daysFn DEFAULT_CONFIG store)[i] =
        { store[i] with
          archived_at := none
          current_level := 3
          retention_score := some
            (max (store[i].emotional_intensity * (199/200) ^ daysFn a)
              (5 + 3))
          revival_requested := false
          revival_requested_at := none }) ∧
    (store[i].revival_requested = false ∨ store[i].archived_at = none →
      (process_revival daysFn DEFAULT_CONFIG store)[i] = store[i]) := by
  constructor
  · intro a ha hreq
    have hne : store[i].archived_at ≠ none := by simp [ha]
    have hsel : store[i].revival_requested = true ∧
        store[i].archived_at ≠ none := ⟨hreq, hne⟩
    simp only [process_revival, List.getElem_map]
    rw [if_pos hsel]
    simp [revive_memory, ha, DEFAULT_CONFIG]
  · intro hskip
    have hcond : ¬(store[i].revival_requested = true ∧
        store[i].archived_at ≠ none) := by
      intro hc
      rcases hskip with h | h <;> simp_all
    simp only [process_revival, List.getElem_map, if_neg hcond]

/-- A concrete archived row with a pending revival request. -/
def sampleArchived : Memory where
  id := "mem_20260101_bbbbbbbb"
  memory_days := 40
  recalled_since_last_batch := false
  recall_count := 0
  emotional_intensity := 80
  decay_coefficient := 9/10
  current_level := 4
  trigger := "t"
  content := "c"
  embedding := none
  relations := []
  retention_score := some 1
  archived_at := some "2026-01-01T00:00:00+00:00"
  «protected» := false
  revival_requested := true
  revival_requested_at := some "2026-01-10T00:00:00+00:00"

theorem revival_step_witness :
    (process_revival (fun _ => 1) DEFAULT_CONFIG [sampleArchived]).head? =
      some { sampleArchived with
        archived_at := none
        current_level := 3
        retention_score := some (398/5)
        revival_requested := false
        revival_requested_at := none } := by
  have h := (revival_step (fun _ => 1) [sampleArchived] 0 (by simp)
    (by simp [process_revival])).1 "2026-01-01T00:00:00+00:00" rfl rfl
  simp only [List.getElem_cons_zero] at h
  rw [List.head?_eq_getElem?,
    List.getElem?_eq_getElem (by simp [process_revival] :
      0 < (process_revival (fun _ => 1) DEFAULT_CONFIG
        [sampleArchived]).length)]
  simp only [List.getElem_cons_zero] at h ⊢
  rw [h]
  simp only [Option.some.injEq]
  have hmax : max (sampleArchived.emotional_intensity * (199/200) ^ 1)
      ((5 : ℚ) + 3) = 398/5 := by
    norm_num [sampleArchived]
  rw [hmax]

theorem compressStage2_level (f2 : String → String → Option (String × String))
    (m : Memory) (new_level : Nat) (u u1 : CompressUpdates)
    (h : compressStage2 f2 m new_level u = some u1) :
    u1.current_level = u.current_level := by
  unfold compressStage2 at h
  split at h
  · split at h
    · exact Option.noConfusion h
    · simp only [Option.some.injEq] at h
      rw [← h]
  · simp only [Option.some.injEq] at h
    rw [← h]

theorem compressStage3_level (f3 : String → String → Option (String × String))
    (m : Memory) (new_level : Nat) (u u2 : CompressUpdates)
    (h : compressStage3 f3 m new_level u = some u2) :
    u2.current_level = u.current_level := by
  unfold compressStage3 at h
  split at h
  · split at h
    · exact Option.noConfusion h
    · simp only [Option.some.injEq] at h
      rw [← h]
  · simp only [Option.some.injEq] at h
    rw [← h]

theorem compressStage4_level (now : String) (new_level : Nat)
    (u : CompressUpdates) :
    (compressStage4 now new_level u).current_level = u.current_level := by
  unfold compressStage4
  split <;> rfl

theorem compressEmbed_level (embf : String → Option (List ℚ)) (m : Memory)
    (u u4 : CompressUpdates) (h : compressEmbed embf m u = some u4) :
    u4.current_level = u.current_level := by
  unfold compressEmbed at h
  split at h
  · exact Option.noConfusion h
  · simp only [Option.some.injEq] at h
    rw [← h]

theorem compress_memory_current_level (f2 f3 : String → String →
    Option (String × String)) (embf : String → Option (List ℚ))
    (now : String) (m : Memory) (new_level : Nat) :
    (compress_memory f2 f3 embf now m new_level).current_level = new_level := by
  unfold compress_memory
  split
  · rfl
  · rename_i u1 h2
    have hl1 : u1.current_level = new_level :=
      compressStage2_level f2 m new_level _ u1 h2
    split
    · exact hl1
    · rename_i u2 h3
      have hl2 : u2.current_level = new_level :=
        (compressStage3_level f3 m new_level u1 u2 h3).trans hl1
      split
      · rw [compressStage4_level]
        exact hl2
      · rename_i u4 h4
        rw [compressEmbed_level embf m _ u4 h4, compressStage4_level]
        exact hl2

/-- A concrete level-1 row used for the compression counterexample. -/
def sampleL1 : Memory where
  id := "mem_20260101_cccccccc"
  memory_days := 30
  recalled_since_last_batch := false
  recall_count := 0
  emotional_intensity := 50
  decay_coefficient := 9/10
  current_level := 1
  trigger := "T1"
  content := "C1"
  embedding := some [1]
  relations := []
  retention_score := some 10
  archived_at := none
  «protected» := false
  revival_requested := false
  revival_requested_at := none

/-- Claim C2 counterexample: on a direct 1→3 jump where the level-2 analyzer
call succeeds (returning the summary texts) and the level-3 call raises, the
persisted update is NOT level-only and the text is NOT left unchanged: the
record is written with the level-2 trigger and content (the updates dict
already held them when the exception was caught). -/
theorem compress_partial_failure_counterexample :
    compress_memory (fun _ _ => some ("T2", "C2")) (fun _ _ => none)
        (fun _ => none) "2026-02-01T00:00:00+00:00" sampleL1 3 =
      { current_level := 3, trigger := some "T2", content := some "C2" } ∧
    (apply_updates sampleL1
        (compress_memory (fun _ _ => some ("T2", "C2")) (fun _ _ => none)
          (fun _ => none) "2026-02-01T00:00:00+00:00" sampleL1 3)).content =
      "C2" ∧
    sampleL1.content = "C1" := by
  refine ⟨rfl, rfl, rfl⟩

/-- Claim C2 (amended): when an external call fails during `compress_memory`,
the persisted update consists of the new level plus exactly the fields
accumulated before the failing call, and nothing later:
* if the first applicable analyzer call fails, only the level is updated
  (trigger, content, embedding and `archived_at` are all left unchanged — so a
  jump to level 4 whose analyzer call fails does not even set `archived_at`);
* on a direct 1→3 jump where the level-2 call succeeds and the level-3 call
  fails, the level and the level-2 texts are persisted, the embedding is left
  unchanged;
* on a 3→4 transition (no analyzer call applies) where the embedder fails, the
  level and `archived_at` are persisted and trigger, content and embedding are
  left unchanged;
* in every case the new level itself is applied. -/
theorem compress_memory_failure_behavior
    (f2 f3 : String → String → Option (String × String))
    (embf : String → Option (List ℚ)) (now : String) (m : Memory)
    (new_level : Nat) :
    ((apply_updates m (compress_memory f2 f3 embf now m new_level)).current_level
        = new_level) ∧
    (m.current_level = 1 → 2 ≤ new_level → f2 m.trigger m.content = none →
      compress_memory f2 f3 embf now m new_level =
        { current_level := new_level }) ∧
    (∀ t2 c2, m.current_level = 1 → new_level = 3 →
      f2 m.trigger m.content = some (t2, c2) → f3 t2 c2 = none →
      compress_memory f2 f3 embf now m new_level =
        { current_level := 3, trigger := some t2, content := some c2 }) ∧
    (m.current_level = 3 → new_level = 4 →
      embf (m.trigger ++ " " ++ m.content) = none →
      compress_memory f2 f3 embf now m new_level =
        { current_level := 4, archived_at := some now }) := by
  refine ⟨?_, ?_, ?_, ?_⟩
  · simp [apply_updates, compress_memory_current_level]
  · intro hcur hge hf2
    have hs2 : compressStage2 f2 m new_level { current_level := new_level } =
        none := by
      unfold compressStage2
      rw [if_pos ⟨hcur, hge⟩, hf2]
    simp only [compress_memory, hs2]
  · intro t2 c2 hcur hlvl hf2 hf3
    subst hlvl
    have hs2 : compressStage2 f2 m 3 { current_level := 3 } =
        some { current_level := 3, trigger := some t2, content := some c2 } := by
      unfold compressStage2
      rw [if_pos ⟨hcur, by norm_num⟩, hf2]
    have hs3 : compressStage3 f3 m 3
        { current_level := 3, trigger := some t2, content := some c2 } =
        none := by
      unfold compressStage3
      rw [if_pos ⟨by rw [hcur]; norm_num, by norm_num⟩]
      simp only [Option.getD_some]
      rw [hf3]
    simp only [compress_memory, hs2, hs3]
  · intro hcur hlvl hembf
    subst hlvl
    have hs2 : compressStage2 f2 m 4 { current_level := 4 } =
        some { current_level := 4 } := by
      unfold compressStage2
      rw [if_neg (by rw [hcur]; norm_num)]
    have hs3 : compressStage3 f3 m 4 { current_level := 4 } =
        some { current_level := 4 } := by
      unfold compressStage3
      rw [if_neg (by rw [hcur]; norm_num)]
    have hsE : compressEmbed embf m
        { current_level := 4, archived_at := some now } = none := by
      unfold compressEmbed
      simp only [Option.getD_none]
      rw [hembf]
    have hs4n : compressStage4 now 4 { current_level := 4 } =
        { current_level := 4, archived_at := some now } := by
      unfold compressStage4
      rw [if_pos rfl]
    simp only [compress_memory, hs2, hs3, hs4n, hsE]

theorem compress_memory_failure_witness :
    (apply_updates sampleL1
        (compress_memory (fun _ _ => none) (fun _ _ => none) (fun _ => none)
          "2026-02-01T00:00:00+00:00" sampleL1 2)).current_level = 2 ∧
    compress_memory (fun _ _ => none) (fun _ _ => none) (fun _ => none)
        "2026-02-01T00:00:00+00:00" sampleL1 2 = { current_level := 2 } := by
  have h := compress_memory_failure_behavior (fun _ _ => none)
    (fun _ _ => none) (fun _ => none) "2026-02-01T00:00:00+00:00" sampleL1 2
  exact ⟨h.1, h.2.1 rfl (by norm_num) rfl⟩

theorem filter_orderedInsert_rank (q : ℚ) (a : Scored) (l : List Scored) :
    (l.orderedInsert rankGE a).filter (fun s => decide (s.relevance = q)) =
      if a.relevance = q then
        a :: l.filter (fun s => decide (s.relevance = q))
      else l.filter (fun s => decide (s.relevance = q)) := by
  induction l with
  | nil =>
    by_cases hq : a.relevance = q <;>
      simp [List.orderedInsert, List.filter_cons, hq]
  | cons b t ih =>
    by_cases hr : rankGE a b
    · rw [List.orderedInsert, if_pos hr]
      by_cases hq : a.relevance = q <;>
        simp [List.filter_cons, hq]
    · rw [List.orderedInsert, if_neg hr]
      by_cases hq : a.relevance = q
      · have hb : ¬ b.relevance = q := by
          intro hbq
          exact hr (le_of_eq (hq ▸ hbq))
        simp [List.filter_cons, hq, hb, ih]
      · by_cases hbq : b.relevance = q <;>
          simp [List.filter_cons, hq, hbq, ih]

theorem filter_insertionSort_rank (q : ℚ) (l : List Scored) :
    (l.insertionSort rankGE).filter (fun s => decide (s.relevance = q)) =
      l.filter (fun s => decide (s.relevance = q)) := by
  induction l with
  | nil => rfl
  | cons a t ih =>
    rw [List.insertionSort, filter_orderedInsert_rank]
    by_cases hq : a.relevance = q <;> simp [List.filter_cons, hq, ih]

theorem filter_take_pref (p : Scored → Bool) (l : List Scored) (n : Nat) :
    ∃ t, (l.take n).filter p ++ t = l.filter p :=
  ⟨(l.drop n).filter p, by rw [← List.filter_append, List.take_append_drop]⟩

theorem take_sorted_props (pool : List Scored) (K : Nat) :
    (∀ s ∈ (pool.insertionSort rankGE).take K, s ∈ pool) ∧
    ((pool.insertionSort rankGE).take K).length = min K pool.length ∧
    ((pool.insertionSort rankGE).take K).Sorted rankGE ∧
    (∃ rest, pool.Perm ((pool.insertionSort rankGE).take K ++ rest) ∧
      ∀ s ∈ (pool.insertionSort rankGE).take K, ∀ t ∈ rest,
        t.relevance ≤ s.relevance) ∧
    (∀ q : ℚ, ∃ t, ((pool.insertionSort rankGE).take K).filter
        (fun s => decide (s.relevance = q)) ++ t =
      pool.filter (fun s => decide (s.relevance = q))) := by
  have hsorted : (pool.insertionSort rankGE).Sorted rankGE :=
    List.sorted_insertionSort rankGE pool
  have hperm : (pool.insertionSort rankGE).Perm pool :=
    List.perm_insertionSort rankGE pool
  refine ⟨?_, ?_, ?_, ?_, ?_⟩
  · intro s hs
    exact hperm.mem_iff.mp ((List.take_sublist K _).subset hs)
  · rw [List.length_take, List.length_insertionSort]
  · exact List.Pairwise.sublist (List.take_sublist K _) hsorted
  · refine ⟨(pool.insertionSort rankGE).drop K, ?_, ?_⟩
    · rw [List.take_append_drop]
      exact hperm.symm
    · intro s hs t ht
      have hpw : ((pool.insertionSort rankGE).take K ++
          (pool.insertionSort rankGE).drop K).Pairwise rankGE := by
        rw [List.take_append_drop]
        exact hsorted
      exact (List.pairwise_append.mp hpw).2.2 s hs t ht
  · intro q
    obtain ⟨t, ht⟩ := filter_take_pref (fun s => decide (s.relevance = q))
      (pool.insertionSort rankGE) K
    exact ⟨t, by rw [ht, filter_insertionSort_rank]⟩

theorem mem_positiveScored {s : Scored} {scored : List Scored}
    (h : s ∈ positiveScored scored) : s ∈ scored ∧ 0 < s.relevance := by
  have := List.mem_filter.mp h
  exact ⟨this.1, of_decide_eq_true this.2⟩

theorem mem_highRelevance {s : Scored} {relevance_threshold : ℚ}
    {scored : List Scored} (h : s ∈ highRelevance relevance_threshold scored) :
    s ∈ positiveScored scored ∧ relevance_threshold ≤ s.relevance := by
  have := List.mem_filter.mp h
  exact ⟨this.1, of_decide_eq_true this.2⟩

/-- Claim C4 counterexample: two candidates with equal relevance are returned
in their original candidate order (Python's stable sort), not ordered by id:
with ids "b" before "a" in the candidate list and equal relevance 1, the
ranked result keeps "b" first even though "a" < "b" lexicographically. -/
theorem search_rank_tiebreak_counterexample :
    (search_memories_rank 10 (1/2)
        [{ relevance := 1, id := "b", archived := false },
         { relevance := 1, id := "a", archived := false }]).map
      (fun s => s.id) = ["b", "a"] ∧
    ("a" : String).data < ("b" : String).data := by
  constructor
  · norm_num [search_memories_rank, highRelevance, positiveScored,
      List.filter_cons, List.insertionSort, List.orderedInsert, rankGE]
  · decide

/-- Claim C4 (amended): in the filter-and-rank stage, candidates with
relevance ≤ 0 are dropped; with `H` the remaining candidates at or above the
threshold, if `|H| ≥ K` the result is the top-K of `H` by descending
relevance, otherwise the top-K of all remaining candidates — where top-K
means: K elements (except that the fallback returns everything when fewer
remain), sorted by descending relevance, such that every candidate of the
pool left out has relevance no larger than any returned one.  Candidates with
equal relevance keep their ORIGINAL candidate order (Python's stable sort),
not lexicographic id order: for every relevance value `q`, the returned
candidates with relevance `q` form a prefix of the surviving candidates with
relevance `q` in input order. -/
theorem search_memories_rank_spec (top_k : Nat) (relevance_threshold : ℚ)
    (scored : List Scored) :
    (∀ s ∈ search_memories_rank top_k relevance_threshold scored,
      0 < s.relevance) ∧
    (top_k ≤ (highRelevance relevance_threshold scored).length →
      (search_memories_rank top_k relevance_threshold scored).length = top_k ∧
      (∀ s ∈ search_memories_rank top_k relevance_threshold scored,
        relevance_threshold ≤ s.relevance) ∧
      ∃ rest, (highRelevance relevance_threshold scored).Perm
          (search_memories_rank top_k relevance_threshold scored ++ rest) ∧
        ∀ s ∈ search_memories_rank top_k relevance_threshold scored,
          ∀ t ∈ rest, t.relevance ≤ s.relevance) ∧
    ((highRelevance relevance_threshold scored).length < top_k →
      (search_memories_rank top_k relevance_threshold scored).length =
        min top_k (positiveScored scored).length ∧
      ∃ rest, (positiveScored scored).Perm
          (search_memories_rank top_k relevance_threshold scored ++ rest) ∧
        ∀ s ∈ search_memories_rank top_k relevance_threshold scored,
          ∀ t ∈ rest, t.relevance ≤ s.relevance) ∧
    (search_memories_rank top_k relevance_threshold scored).Sorted rankGE ∧
    (∀ q : ℚ, ∃ t,
      (search_memories_rank top_k relevance_threshold scored).filter
          (fun s => decide (s.relevance = q)) ++ t =
        (positiveScored scored).filter (fun s => decide (s.relevance = q))) := by
  by_cases hbr : top_k ≤ (highRelevance relevance_threshold scored).length
  · have hres : search_memories_rank top_k relevance_threshold scored =
        ((highRelevance relevance_threshold scored).insertionSort
          rankGE).take top_k := by
      simp only [search_memories_rank]
      rw [if_pos hbr]
    obtain ⟨hmem, hlen, hsort, hrest, hties⟩ :=
      take_sorted_props (highRelevance relevance_threshold scored) top_k
    have hmem' : ∀ s ∈ search_memories_rank top_k relevance_threshold scored,
        s ∈ highRelevance relevance_threshold scored := by
      rw [hres]; exact hmem
    refine ⟨?_, ?_, ?_, ?_, ?_⟩
    · intro s hs
      exact (mem_positiveScored (mem_highRelevance (hmem' s hs)).1).2
    · intro _
      refine ⟨by rw [hres, hlen]; omega, ?_, ?_⟩
      · intro s hs
        exact (mem_highRelevance (hmem' s hs)).2
      · rw [hres]; exact hrest
    · intro hlt; omega
    · rw [hres]; exact hsort
    · intro q
      by_cases hq : relevance_threshold ≤ q
      · obtain ⟨t, ht⟩ := hties q
        refine ⟨t, ?_⟩
        rw [hres, ht]
        unfold highRelevance
        rw [List.filter_filter]
        refine List.filter_congr ?_
        intro s _
        by_cases hsq : s.relevance = q
        · simp [hsq, hq]
        · simp [hsq]
      · refine ⟨(positiveScored scored).filter
          (fun s => decide (s.relevance = q)), ?_⟩
        have hnil : (search_memories_rank top_k relevance_threshold
            scored).filter (fun s => decide (s.relevance = q)) = [] := by
          rw [List.filter_eq_nil_iff]
          intro s hs
          have hτ : relevance_threshold ≤ s.relevance :=
            (mem_highRelevance (hmem' s hs)).2
          simp only [decide_eq_true_eq]
          intro hsq
          exact hq (hsq ▸ hτ)
        rw [hnil, List.nil_append]
  · have hres : search_memories_rank top_k relevance_threshold scored =
        ((positiveScored scored).insertionSort rankGE).take top_k := by
      simp only [search_memories_rank]
      rw [if_neg hbr]
    obtain ⟨hmem, hlen, hsort, hrest, hties⟩ :=
      take_sorted_props (positiveScored scored) top_k
    refine ⟨?_, ?_, ?_, ?_, ?_⟩
    · intro s hs
      rw [hres] at hs
      exact (mem_positiveScored (hmem s hs)).2
    · intro hle; omega
    · intro _
      refine ⟨by rw [hres, hlen], ?_⟩
      rw [hres]; exact hrest
    · rw [hres]; exact hsort
    · intro q
      rw [hres]; exact hties q

theorem search_memories_rank_spec_witness :
    (search_memories_rank 1 1
        [{ relevance := 2, id := "x", archived := false },
         { relevance := 3, id := "y", archived := false }]).length = 1 ∧
    (search_memories_rank 1 1
        [{ relevance := 2, id := "x", archived := false },
         { relevance := 3, id := "y", archived := false }]).Sorted rankGE := by
  have h := search_memories_rank_spec 1 1
    [{ relevance := 2, id := "x", archived := false },
     { relevance := 3, id := "y", archived := false }]
  have hle : 1 ≤ (highRelevance 1
      [{ relevance := 2, id := "x", archived := false },
       { relevance := 3, id := "y", archived := false }]).length := by
    norm_num [highRelevance, positiveScored, List.filter_cons]
  exact ⟨(h.2.1 hle).1, h.2.2.2.1⟩

/-! ## Batch invariance machinery for protected records -/

/-- The record fields that matter for the protected-record invariant:
`m'` agrees with `m` on id, level, archive state, protection and the revival
request. -/
def CoreEq (m m' : Memory) : Prop :=
  m'.id = m.id ∧ m'.current_level = m.current_level ∧
  m'.archived_at = m.archived_at ∧ m'.«protected» = m.«protected» ∧
  m'.revival_requested = m.revival_requested

theorem coreEq_refl (m : Memory) : CoreEq m m :=
  ⟨rfl, rfl, rfl, rfl, rfl⟩

theorem coreEq_trans {a b c : Memory} (h1 : CoreEq a b) (h2 : CoreEq b c) :
    CoreEq a c :=
  ⟨h2.1.trans h1.1, h2.2.1.trans h1.2.1, h2.2.2.1.trans h1.2.2.1,
    h2.2.2.2.1.trans h1.2.2.2.1, h2.2.2.2.2.trans h1.2.2.2.2⟩

/-- Store-wide core preservation: same length and `CoreEq` row by row. -/
def PreservedAll (s s' : List Memory) : Prop :=
  s'.length = s.length ∧ ∀ (i : ℕ) (h : i < s.length) (h' : i < s'.length),
    CoreEq s[i] s'[i]

theorem preservedAll_refl (s : List Memory) : PreservedAll s s :=
  ⟨rfl, fun i h _ => coreEq_refl s[i]⟩

theorem preservedAll_trans {s s' s'' : List Memory}
    (h1 : PreservedAll s s') (h2 : PreservedAll s' s'') :
    PreservedAll s s'' := by
  obtain ⟨hl1, hc1⟩ := h1
  obtain ⟨hl2, hc2⟩ := h2
  refine ⟨hl2.trans hl1, fun i h h'' => ?_⟩
  have h' : i < s'.length := by omega
  exact coreEq_trans (hc1 i h h') (hc2 i h' h'')

theorem preservedAll_map (f : Memory → Memory)
    (hf : ∀ m, CoreEq m (f m)) (s : List Memory) :
    PreservedAll s (s.map f) := by
  refine ⟨List.length_map s f, fun i h h' => ?_⟩
  rw [List.getElem_map]
  exact hf s[i]

theorem preservedAll_foldl {X : Type} (step : List Memory → X → List Memory)
    (hstep : ∀ st x, PreservedAll st (step st x)) :
    ∀ (l : List X) (st : List Memory),
      PreservedAll st (List.foldl step st l) := by
  intro l
  induction l with
  | nil => intro st; exact preservedAll_refl st
  | cons x xs ih =>
    intro st
    exact preservedAll_trans (hstep st x) (ih (step st x))

theorem preservedAll_update_relations_column (mid : String) (rs : List String)
    (st : List Memory) :
    PreservedAll st (update_relations_column mid rs st) := by
  refine preservedAll_map _ (fun m => ?_) st
  dsimp only
  split
  · exact ⟨rfl, rfl, rfl, rfl, rfl⟩
  · exact coreEq_refl m

theorem preservedAll_reevaluate_edge (config : Config)
    (snapshot : List Memory) (m : Memory) (st : List Memory)
    (tid : String) :
    PreservedAll st (reevaluate_edge config snapshot m st tid) := by
  unfold reevaluate_edge
  cases snapshot.find? (fun t => t.id = tid) with
  | none => exact preservedAll_refl st
  | some target =>
    dsimp only
    split
    · exact preservedAll_trans
        (preservedAll_update_relations_column _ _ _)
        (preservedAll_update_relations_column _ _ _)
    · exact preservedAll_refl st

theorem preservedAll_check_integrity (s : List Memory) :
    PreservedAll s (check_integrity s) := by
  refine preservedAll_map _ (fun m => ?_) s
  dsimp only
  split
  · exact ⟨rfl, rfl, rfl, rfl, rfl⟩
  · exact coreEq_refl m

theorem preservedAll_reevaluate_directions (config : Config)
    (s : List Memory) :
    PreservedAll s (reevaluate_directions config s) := by
  unfold reevaluate_directions
  dsimp only
  exact preservedAll_foldl _
    (fun st m => preservedAll_foldl _
      (fun st' tid => preservedAll_reevaluate_edge config s m st' tid)
      m.relations st) s s

theorem preservedAll_process_relations (config : Config) (s : List Memory) :
    PreservedAll s (process_relations config s) :=
  preservedAll_trans (preservedAll_check_integrity s)
    (preservedAll_reevaluate_directions config (check_integrity s))

theorem preservedAll_recall_step (config : Config) (s : List Memory) :
    PreservedAll s (process_all_recalled_memories config s) := by
  refine preservedAll_map _ (fun m => ?_) s
  dsimp only
  split
  · exact ⟨rfl, rfl, rfl, rfl, rfl⟩
  · exact coreEq_refl m

theorem preservedAll_increment_step (s : List Memory) :
    PreservedAll s (increment_memory_days s) := by
  refine preservedAll_map _ (fun m => ?_) s
  dsimp only
  split
  · exact ⟨rfl, rfl, rfl, rfl, rfl⟩
  · exact coreEq_refl m

theorem preservedAll_rescore_step (rpow : ℚ → ℚ → ℚ) (s : List Memory) :
    PreservedAll s (update_retention_scores rpow s) := by
  refine preservedAll_map _ (fun m => ?_) s
  dsimp only
  split
  · exact ⟨rfl, rfl, rfl, rfl, rfl⟩
  · exact coreEq_refl m

theorem should_compress_protected (rpow : ℚ → ℚ → ℚ) (config : Config)
    (m : Memory) (hp : m.«protected» = true) :
    should_compress rpow config m = (false, m.current_level) := by
  unfold should_compress
  rw [hp]
  simp only [if_pos]

theorem process_compression_protected_row (rpow : ℚ → ℚ → ℚ)
    (f2 f3 : String → String → Option (String × String))
    (embf : String → Option (List ℚ)) (now : String) (config : Config)
    (s : List Memory) (i : ℕ) (h : i < s.length)
    (h' : i < (process_compression rpow f2 f3 embf now config s).length)
    (hp : s[i].«protected» = true) :
    (process_compression rpow f2 f3 embf now config s)[i] = s[i] := by
  unfold process_compression
  rw [List.getElem_map]
  rw [should_compress_protected rpow config s[i] hp]
  split <;> rfl

theorem process_revival_untouched_row (daysFn : String → Nat)
    (config : Config) (s : List Memory) (i : ℕ) (h : i < s.length)
    (h' : i < (process_revival daysFn config s).length)
    (hcond : s[i].archived_at = none ∨ s[i].revival_requested = false) :
    (process_revival daysFn config s)[i] = s[i] := by
  unfold process_revival
  rw [List.getElem_map]
  rw [if_neg]
  intro hc
  rcases hcond with hna | hrr
  · exact hc.2 hna
  · rw [hrr] at hc
    exact Bool.false_ne_true hc.1

theorem auto_delete_matches_protected (config : Config) (cutoff : String)
    (m : Memory) (hp : m.«protected» = true) :
    auto_delete_matches config cutoff m = false := by
  unfold auto_delete_matches
  rw [hp]
  simp

theorem process_auto_delete_default (cutoff : String) (s : List Memory) :
    process_auto_delete DEFAULT_CONFIG cutoff s = s := by
  simp [process_auto_delete, DEFAULT_CONFIG]

theorem run_batch_protected_once (rpow : ℚ → ℚ → ℚ)
    (f2 f3 : String → String → Option (String × String))
    (embf : String → Option (List ℚ)) (daysFn : String → Nat)
    (now cutoff : String) (s : List Memory) (i : ℕ) (h : i < s.length)
    (hp : s[i].«protected» = true)
    (hcond : s[i].archived_at = none ∨ s[i].revival_requested = false) :
    (run_compression_batch rpow f2 f3 embf daysFn now cutoff
        DEFAULT_CONFIG s).length = s.length ∧
    ∀ h' : i < (run_compression_batch rpow f2 f3 embf daysFn now cutoff
        DEFAULT_CONFIG s).length,
      CoreEq s[i] ((run_compression_batch rpow f2 f3 embf daysFn now cutoff
        DEFAULT_CONFIG s)[i]) := by
  have p123 : PreservedAll s
      (update_retention_scores rpow (increment_memory_days
        (process_all_recalled_memories DEFAULT_CONFIG s))) :=
    preservedAll_trans (preservedAll_recall_step DEFAULT_CONFIG s)
      (preservedAll_trans (preservedAll_increment_step _)
        (preservedAll_rescore_step rpow _))
  set s3 := update_retention_scores rpow (increment_memory_days
    (process_all_recalled_memories DEFAULT_CONFIG s)) with hs3def
  have h3 : i < s3.length := by rw [p123.1]; exact h
  have hc3 : CoreEq s[i] s3[i] := p123.2 i h h3
  set s4 := process_compression rpow f2 f3 embf now DEFAULT_CONFIG s3
    with hs4def
  have hlen4 : s4.length = s3.length := List.length_map s3 _
  have h4 : i < s4.length := by rw [hlen4]; exact h3
  have heq4 : s4[i] = s3[i] :=
    process_compression_protected_row rpow f2 f3 embf now DEFAULT_CONFIG s3
      i h3 h4 (by rw [hc3.2.2.2.1, hp])
  have hc4 : CoreEq s[i] s4[i] := by rw [heq4]; exact hc3
  set s5 := process_revival daysFn DEFAULT_CONFIG s4 with hs5def
  have hlen5 : s5.length = s4.length := List.length_map s4 _
  have h5 : i < s5.length := by rw [hlen5]; exact h4
  have heq5 : s5[i] = s4[i] := by
    refine process_revival_untouched_row daysFn DEFAULT_CONFIG s4 i h4 h5 ?_
    rcases hcond with hna | hrr
    · exact Or.inl (by rw [hc4.2.2.1, hna])
    · exact Or.inr (by rw [hc4.2.2.2.2, hrr])
  have hc5 : CoreEq s[i] s5[i] := by rw [heq5]; exact hc4
  have p6 : PreservedAll s5 (process_relations DEFAULT_CONFIG s5) :=
    preservedAll_process_relations DEFAULT_CONFIG s5
  have hbatch : run_compression_batch rpow f2 f3 embf daysFn now cutoff
      DEFAULT_CONFIG s = process_relations DEFAULT_CONFIG s5 := by
    rw [run_compression_batch, process_auto_delete_default]
  constructor
  · rw [hbatch, p6.1, hlen5, hlen4, p123.1]
  · intro h'
    have h'' : i < (process_relations DEFAULT_CONFIG s5).length := by
      rw [← hbatch]; exact h'
    have h6 : i < s5.length := by rw [← p6.1]; exact h''
    exact coreEq_trans hc5 (p6.2 i h6 h'')

theorem run_batch_protected_iter (rpow : ℚ → ℚ → ℚ)
    (f2 f3 : String → String → Option (String × String))
    (embf : String → Option (List ℚ)) (daysFn : String → Nat)
    (now cutoff : String) (n : ℕ) :
    ∀ (store : List Memory) (i : ℕ) (h : i < store.length),
      store[i].«protected» = true →
      (store[i].archived_at = none ∨ store[i].revival_requested = false) →
      ((run_compression_batch rpow f2 f3 embf daysFn now cutoff
          DEFAULT_CONFIG)^[n] store).length = store.length ∧
      ∀ h' : i < ((run_compression_batch rpow f2 f3 embf daysFn now cutoff
          DEFAULT_CONFIG)^[n] store).length,
        CoreEq store[i] (((run_compression_batch rpow f2 f3 embf daysFn now
          cutoff DEFAULT_CONFIG)^[n] store)[i]) := by
  induction n with
  | zero =>
    intro store i h hp hcond
    exact ⟨rfl, fun h' => coreEq_refl store[i]⟩
  | succ n ih =>
    intro store i h hp hcond
    have hstep := run_batch_protected_once rpow f2 f3 embf daysFn now cutoff
      store i h hp hcond
    have h1 : i < (run_compression_batch rpow f2 f3 embf daysFn now cutoff
        DEFAULT_CONFIG store).length := by rw [hstep.1]; exact h
    have hc1 := hstep.2 h1
    have hp1 : (run_compression_batch rpow f2 f3 embf daysFn now cutoff
        DEFAULT_CONFIG store)[i].«protected» = true := by
      rw [hc1.2.2.2.1]; exact hp
    have hcond1 : (run_compression_batch rpow f2 f3 embf daysFn now cutoff
        DEFAULT_CONFIG store)[i].archived_at = none ∨
        (run_compression_batch rpow f2 f3 embf daysFn now cutoff
        DEFAULT_CONFIG store)[i].revival_requested = false := by
      rcases hcond with hna | hrr
      · exact Or.inl (by rw [hc1.2.2.1]; exact hna)
      · exact Or.inr (by rw [hc1.2.2.2.2]; exact hrr)
    have hiter := ih (run_compression_batch rpow f2 f3 embf daysFn now cutoff
      DEFAULT_CONFIG store) i h1 hp1 hcond1
    rw [Function.iterate_succ_apply]
    refine ⟨by rw [hiter.1, hstep.1], fun h' => ?_⟩
    exact coreEq_trans hc1 (hiter.2 h')

/-- Claim C8 (amended): the compression predicate never selects a protected
record (`should_compress` returns `(false, current_level)`), and the
auto-delete condition never matches a protected record; consequently a
protected record that is ACTIVE, or archived without a pending revival
request, keeps its `current_level` and `archived_at` (and its protection and
revival flag) across any number of executed default-configuration batches.
The exception forced by the counterexample: the revival step does not check
`protected`, so a protected ARCHIVED record with `revival_requested = true`
is revived by the next batch (level 3, archive cleared). -/
theorem protected_record_invariance :
    (∀ (rpow : ℚ → ℚ → ℚ) (config : Config) (m : Memory),
      m.«protected» = true →
      should_compress rpow config m = (false, m.current_level)) ∧
    (∀ (config : Config) (cutoff : String) (m : Memory),
      m.«protected» = true →
      auto_delete_matches config cutoff m = false) ∧
    (∀ (rpow : ℚ → ℚ → ℚ)
      (f2 f3 : String → String → Option (String × String))
      (embf : String → Option (List ℚ)) (daysFn : String → Nat)
      (now cutoff : String) (n : ℕ) (store : List Memory) (i : ℕ)
      (h : i < store.length),
      store[i].«protected» = true →
      (store[i].archived_at = none ∨ store[i].revival_requested = false) →
      ((run_compression_batch rpow f2 f3 embf daysFn now cutoff
          DEFAULT_CONFIG)^[n] store).length = store.length ∧
      ∀ h' : i < ((run_compression_batch rpow f2 f3 embf daysFn now cutoff
          DEFAULT_CONFIG)^[n] store).length,
        (((run_compression_batch rpow f2 f3 embf daysFn now cutoff
            DEFAULT_CONFIG)^[n] store)[i]).current_level =
          store[i].current_level ∧
        (((run_compression_batch rpow f2 f3 embf daysFn now cutoff
            DEFAULT_CONFIG)^[n] store)[i]).archived_at =
          store[i].archived_at) := by
  refine ⟨should_compress_protected, auto_delete_matches_protected, ?_⟩
  intro rpow f2 f3 embf daysFn now cutoff n store i h hp hcond
  have hiter := run_batch_protected_iter rpow f2 f3 embf daysFn now cutoff n
    store i h hp hcond
  exact ⟨hiter.1, fun h' => ⟨(hiter.2 h').2.1, (hiter.2 h').2.2.1⟩⟩

/-- A protected, active record. -/
def sampleProtectedActive : Memory where
  id := "mem_20260101_dddddddd"
  memory_days := 3
  recalled_since_last_batch := false
  recall_count := 0
  emotional_intensity := 10
  decay_coefficient := 9/10
  current_level := 2
  trigger := "t"
  content := "c"
  embedding := none
  relations := []
  retention_score := some 1
  archived_at := none
  «protected» := true
  revival_requested := false
  revival_requested_at := none

theorem protected_record_invariance_witness :
    should_compress (fun _ _ => 1) DEFAULT_CONFIG sampleProtectedActive =
      (false, 2) ∧
    ((run_compression_batch (fun _ _ => 1) (fun _ _ => none) (fun _ _ => none)
        (fun _ => none) (fun _ => 0) "2026-02-02T00:00:00+00:00"
        "2025-02-02T00:00:00+00:00" DEFAULT_CONFIG)^[3]
      [sampleProtectedActive]).length = 1 := by
  have h := protected_record_invariance
  refine ⟨(h.1 (fun _ _ => 1) DEFAULT_CONFIG sampleProtectedActive rfl).trans
    rfl, ?_⟩
  exact (h.2.2 (fun _ _ => 1) (fun _ _ => none) (fun _ _ => none)
    (fun _ => none) (fun _ => 0) "2026-02-02T00:00:00+00:00"
    "2025-02-02T00:00:00+00:00" 3 [sampleProtectedActive] 0 (by simp) rfl
    (Or.inl rfl)).1

/-- A protected, archived record whose revival was requested by retrieval. -/
def sampleProtectedArchived : Memory where
  id := "mem_20260101_eeeeeeee"
  memory_days := 100
  recalled_since_last_batch := false
  recall_count := 0
  emotional_intensity := 80
  decay_coefficient := 9/10
  current_level := 4
  trigger := "t"
  content := "c"
  embedding := none
  relations := []
  retention_score := some 1
  archived_at := some "2026-01-01T00:00:00+00:00"
  «protected» := true
  revival_requested := true
  revival_requested_at := some "2026-01-10T00:00:00+00:00"

/-- Claim C8 counterexample: the revival step does not check `protected`.  A
protected archived record with a pending revival request has its
`current_level` changed from 4 to 3 and its `archived_at` cleared by one
executed default-configuration batch — so level and archive state of a
protected record are NOT invariant under batches. -/
theorem protected_invariance_counterexample :
    sampleProtectedArchived.«protected» = true ∧
    sampleProtectedArchived.current_level = 4 ∧
    sampleProtectedArchived.archived_at ≠ none ∧
    (run_compression_batch (fun _ _ => 1) (fun _ _ => none) (fun _ _ => none)
        (fun _ => none) (fun _ => 0) "2026-02-02T00:00:00+00:00"
        "2025-02-02T00:00:00+00:00" DEFAULT_CONFIG
        [sampleProtectedArchived]).map
      (fun m => (m.current_level, m.archived_at)) =
      [(3, (none : Option String))] := by
  refine ⟨rfl, rfl, by simp [sampleProtectedArchived], ?_⟩
  rfl
